import Mathlib

/-!
Shallow embedding of the asset ingestion / skeleton compatibility / slot
binding pipeline of the character-showcase repository, together with
theorems settling the frozen claims about it.

Strings are modelled as `List Char`.  JavaScript's `toLowerCase`, `trim`
and the regex replacements of `normalizeAssetKey` are modelled character
by character; only ASCII case folding and the common ASCII whitespace
characters are modelled (all inputs appearing in the claims are ASCII).
-/

namespace ModelStage

abbrev Str := List Char

/-- Models JS `String.prototype.toLowerCase` on a single character
(ASCII range; other characters are returned unchanged). -/
def jsToLower (c : Char) : Char :=
  if c.toNat ≥ 65 ∧ c.toNat ≤ 90 then Char.ofNat (c.toNat + 32) else c

/-- Models JS `String.prototype.toLowerCase`. -/
def toLowerStr (l : Str) : Str := l.map jsToLower

/-- Whitespace characters trimmed by JS `String.prototype.trim`
(ASCII subset, identified by code point). -/
def isJsWhitespace (c : Char) : Bool :=
  c.toNat = 32 ∨ c.toNat = 9 ∨ c.toNat = 10 ∨ c.toNat = 11 ∨
    c.toNat = 12 ∨ c.toNat = 13

def jsTrimStart (l : Str) : Str := l.dropWhile isJsWhitespace

def jsTrimEnd (l : Str) : Str := (l.reverse.dropWhile isJsWhitespace).reverse

/-- Models JS `String.prototype.trim` (ASCII whitespace subset). -/
def jsTrim (l : Str) : Str := jsTrimEnd (jsTrimStart l)

/-- Models `input.replace(/\\/g, "/")`. -/
def replaceBackslashes (l : Str) : Str :=
  l.map fun c => if c = '\\' then '/' else c

/-- Models `.replace(/^\.?\//, "")`: strip one leading `./` or `/`. -/
def stripDotSlash (l : Str) : Str :=
  match l with
  | '.' :: '/' :: rest => rest
  | '/' :: rest => rest
  | _ => l

def isAsciiLetter (c : Char) : Bool :=
  ('a' ≤ c ∧ c ≤ 'z') ∨ ('A' ≤ c ∧ c ≤ 'Z')

/-- Models `.replace(/^[a-z]:\//i, "")`: strip a leading drive prefix. -/
def stripDrive (l : Str) : Str :=
  match l with
  | c :: ':' :: '/' :: rest => if isAsciiLetter c then rest else l
  | _ => l

/-- Models `.replace(/^file:\/+/i, "")`: strip a leading `file:` (any case)
followed by one or more slashes. -/
def stripFileScheme (l : Str) : Str :=
  match l with
  | a :: b :: c :: d :: e :: rest =>
    if toLowerStr [a, b, c, d, e] = "file:".data ∧ rest.head? = some '/' then
      rest.dropWhile (· = '/')
    else l
  | _ => l

/-- Models `.replace(/^\//, "")`: strip one leading slash. -/
def stripLeadingSlash (l : Str) : Str :=
  match l with
  | '/' :: rest => rest
  | _ => l

/-- Models `normalizeAssetKey` from `src/loaders/fbxPackLoader.ts`:
backslashes to slashes, strip one `./`, strip a drive prefix, strip a
`file:` scheme, strip one leading slash, trim, lower-case. -/
def normalizeAssetKey (l : Str) : Str :=
  toLowerStr (jsTrim (stripLeadingSlash (stripFileScheme (stripDrive
    (stripDotSlash (replaceBackslashes l))))))

/-! ### Archive resolver (`resolveBlobUrl` in `src/loaders/fbxPackLoader.ts`) -/

/-- Ordered association list lookup (models JS object / `Map` reads). -/
def lookupKey {α β : Type} [DecidableEq α] (m : List (α × β)) (k : α) :
    Option β :=
  match m with
  | [] => none
  | (k0, v0) :: rest => if k0 = k then some v0 else lookupKey rest k

/-- Ordered association list write (models JS object / `Map` writes:
replaces in place, otherwise appends, preserving enumeration order). -/
def setKey {α β : Type} [DecidableEq α] (m : List (α × β)) (k : α) (v : β) :
    List (α × β) :=
  match m with
  | [] => [(k, v)]
  | (k0, v0) :: rest =>
    if k0 = k then (k, v) :: rest else (k0, v0) :: setKey rest k v

def hexDigitVal? (c : Char) : Option Nat :=
  if '0' ≤ c ∧ c ≤ '9' then some (c.toNat - 48)
  else if 'a' ≤ c ∧ c ≤ 'f' then some (c.toNat - 87)
  else if 'A' ≤ c ∧ c ≤ 'F' then some (c.toNat - 55)
  else none

/-- Models the JS builtin `decodeURIComponent`, restricted to single-byte
(ASCII) percent escapes; malformed escapes and multi-byte UTF-8 escapes
are treated as a decode failure (`none`), which `safeDecode` maps back to
the original string. -/
def jsDecodeURIComponent : Str → Option Str
  | [] => some []
  | c :: rest =>
    if c = '%' then
      match rest with
      | h1 :: h2 :: rest2 =>
        match hexDigitVal? h1, hexDigitVal? h2 with
        | some a, some b =>
          if a * 16 + b < 128 then
            (jsDecodeURIComponent rest2).map (Char.ofNat (a * 16 + b) :: ·)
          else none
        | _, _ => none
      | _ => none
    else (jsDecodeURIComponent rest).map (c :: ·)

/-- Models `safeDecode` from `src/loaders/fbxPackLoader.ts`: `decodeURIComponent`
with the original string returned on decode failure. -/
def safeDecode (l : Str) : Str := (jsDecodeURIComponent l).getD l

/-- Models `s.split(sep)[0]`. -/
def splitHead (l : Str) (sep : Char) : Str := l.takeWhile (· ≠ sep)

/-- Models `s.split("/").pop() ?? s` (the last `/`-separated segment; JS `split`
always yields a non-empty array, so the `?? s` fallback never fires). -/
def lastSegment (l : Str) : Str := (l.splitOn '/').getLastD l

/-- JS `String.prototype.lastIndexOf` for a pattern string. -/
def lastIndexOfSub (l pat : Str) : Option Nat :=
  (((List.range (l.length + 1)).filter
    (fun i => pat.isPrefixOf (l.drop i))).getLast?)

/-- JS `Set.prototype.add` on an insertion-ordered list. -/
def addCandidate (cs : List Str) (k : Str) : List Str :=
  if k ∈ cs then cs else cs ++ [k]

/-- First stage of the resolver's candidate set: the normalized path,
when non-empty. -/
def candidatesStep1 (normalized : Str) : List Str :=
  if normalized ≠ [] then [normalized] else []

/-- Second stage: add the basename, when non-empty. -/
def candidatesStep2 (normalized : Str) (cs : List Str) : List Str :=
  if lastSegment normalized ≠ [] then addCandidate cs (lastSegment normalized)
  else cs

/-- Third stage: when a `.fbm/` folder marker occurs in the normalized
path, add the remainder after the marker and its basename. -/
def candidatesStep3 (normalized : Str) (cs : List Str) : List Str :=
  match lastIndexOfSub normalized ".fbm/".data with
  | some i =>
    let afterFbm := normalized.drop (i + 5)
    if afterFbm ≠ [] then
      let cs2 := addCandidate cs afterFbm
      if lastSegment afterFbm ≠ [] then addCandidate cs2 (lastSegment afterFbm)
      else cs2
    else cs
  | none => cs

/-- The resolver's candidate key set, in `Set` insertion order. -/
def buildCandidates (normalized : Str) : List Str :=
  candidatesStep3 normalized (candidatesStep2 normalized
    (candidatesStep1 normalized))

/-- First candidate whose table entry is truthy (a present, non-empty
URL string): the `for (const key of candidates)` loop. -/
def firstCandidateHit (cs : List Str) (m : List (Str × Str)) : Option Str :=
  match cs with
  | [] => none
  | k :: rest =>
    match lookupKey m k with
    | some v => if v ≠ [] then some v else firstCandidateHit rest m
    | none => firstCandidateHit rest m

/-- The `for (const [key, value] of Object.entries(blobUrls))` fallback:
first entry whose key ends in `"/" + basename`. -/
def fallbackScan (basename : Str) (m : List (Str × Str)) : Option Str :=
  match m with
  | [] => none
  | (k, v) :: rest =>
    if basename ≠ [] ∧ ('/' :: basename).isSuffixOf k then some v
    else fallbackScan basename rest

/-- Models `resolveBlobUrl` from `src/loaders/fbxPackLoader.ts`. -/
def resolveBlobUrl (requestedUrl : Str) (blobUrls : List (Str × Str)) : Str :=
  if "blob:".data.isPrefixOf requestedUrl then requestedUrl
  else
    let decoded := splitHead (splitHead (safeDecode requestedUrl) '?') '#'
    let normalized := normalizeAssetKey decoded
    let basename := lastSegment normalized
    match firstCandidateHit (buildCandidates normalized) blobUrls with
    | some v => v
    | none =>
      match fallbackScan basename blobUrls with
      | some v => v
      | none => requestedUrl

/-! ### Scene graphs and the skeleton fingerprint
(`computeSkeletonSignature` in `src/loaders/fbxPackLoader.ts`)

A three.js `Object3D` tree is modelled as a rose tree; each node carries
its name, its `isBone` and `isSkinnedMesh` flags and, for skinned meshes,
the ordered bone-name list of its `skeleton.bones`.  `Object3D.traverse`
visits a node before its children (preorder), which the collectors below
reproduce. -/

mutual
inductive SceneNode : Type where
  | mk (name : Str) (isBone : Bool) (isSkinnedMesh : Bool)
    (skeletonBones : List Str) (children : SceneForest)
inductive SceneForest : Type where
  | nil
  | cons (head : SceneNode) (tail : SceneForest)
end

mutual
/-- Bone-name lists of all skinned-mesh nodes, in traversal order. -/
def collectSkinnedBones : SceneNode → List (List Str)
  | .mk _ _ sk bones ch => (if sk then [bones] else []) ++ collectSkinnedBonesF ch
def collectSkinnedBonesF : SceneForest → List (List Str)
  | .nil => []
  | .cons h t => collectSkinnedBones h ++ collectSkinnedBonesF t
end

mutual
/-- Raw names of all bone-flagged nodes, in traversal order. -/
def collectBoneNames : SceneNode → List Str
  | .mk n b _ _ ch => (if b then [n] else []) ++ collectBoneNamesF ch
def collectBoneNamesF : SceneForest → List Str
  | .nil => []
  | .cons h t => collectBoneNames h ++ collectBoneNamesF t
end

/-- Models `bone.name.trim().toLowerCase()`. -/
def procBoneName (n : Str) : Str := toLowerStr (jsTrim n)

/-- Models `names.join("|")`. -/
def joinPipe (l : List Str) : Str := List.intercalate ['|'] l

/-- The fallback branch of `computeSkeletonSignature`: collect bone-node
names by full traversal, trim/lower-case each, keep the non-empty ones
(the source filters inline while pushing; collecting then filtering
yields the same list). -/
def fallbackBoneNames (root : SceneNode) : List Str :=
  ((collectBoneNames root).map procBoneName).filter (· ≠ [])

/-- Models `computeSkeletonSignature` from `src/loaders/fbxPackLoader.ts`. -/
def computeSkeletonSignature (root : SceneNode) : Option Str :=
  match collectSkinnedBones root with
  | bones :: _ =>
    let names := (bones.map procBoneName).filter (· ≠ [])
    if names ≠ [] then some (joinPipe names)
    else if fallbackBoneNames root = [] then none
    else some (joinPipe (fallbackBoneNames root))
  | [] =>
    if fallbackBoneNames root = [] then none
    else some (joinPipe (fallbackBoneNames root))

/-- The bone-name list a graph's skeleton yields (after trim/lower-case
and dropping empty names): the first skinned mesh's skeleton bones when
one exists and survives filtering, otherwise the traversal-order bone
nodes. -/
def effectiveBoneNames (root : SceneNode) : List Str :=
  match collectSkinnedBones root with
  | bones :: _ =>
    let names := (bones.map procBoneName).filter (· ≠ [])
    if names ≠ [] then names else fallbackBoneNames root
  | [] => fallbackBoneNames root

/-- Concrete scene graphs for the C4 witness: a skinned mesh whose
skeleton bones are `["Hip ", "Spine"]`, a bone-node-only skeleton
yielding the same processed list, and an empty graph. -/
def exSkinnedGraph : SceneNode :=
  .mk "root".data false false []
    (.cons (.mk "mesh".data false true ["Hip ".data, "Spine".data] .nil) .nil)

def exBoneGraph : SceneNode :=
  .mk "armature".data false false []
    (.cons (.mk "hip".data true false [] (.cons (.mk "spine".data true false [] .nil) .nil)) .nil)

def exEmptyGraph : SceneNode := .mk "empty".data false false [] .nil

/-! ### Packs, package kinds, and the runtime ZIP loader
(`src/loaders/zipRuntimeLoader.ts`)

Blob URLs are modelled as natural numbers handed out by a counter
(`URL.createObjectURL` allocation order); a real blob URL is a non-empty
string, so JS truthiness tests on URLs are modelled as `Option` presence.
The external FBX binary parse (`FBXLoader.loadAsync`, a three.js library
call, not repository code) is abstracted as an oracle from the primary
member's name to a parse result; decompressed member bytes are carried as
sizes on the entries themselves. -/

/-- One animation clip, identified by the identity of its
`AnimationClip` object (`mixer.clipAction` caches per clip object). -/
structure ClipData where
  name : Option String
  objId : Nat
deriving DecidableEq

/-- Models `LoadedFbxPack` from `src/types/assets.ts` (the scene-graph root is
not carried; its skeleton signature and skinned-mesh flag are). -/
structure LoadedFbxPack where
  clips : List ClipData
  hasSkinnedMesh : Bool
  skeletonSignature : Option String
deriving DecidableEq

inductive PackageKind : Type where
  | model_with_clip
  | clip_only
deriving DecidableEq

/-- Models `detectPackageKind` from `src/loaders/fbxPackLoader.ts`. -/
def detectPackageKind (pack : LoadedFbxPack) : PackageKind :=
  if pack.hasSkinnedMesh then .model_with_clip else .clip_only

/-- One (non-directory unless `dir`) ZIP archive member, carrying its
decompressed byte length. -/
structure ZipEntry where
  name : Str
  dir : Bool
  size : Nat
deriving DecidableEq

/-- Models `getExtension` from `src/loaders/zipRuntimeLoader.ts`: the lower-cased
suffix from the last `.` (inclusive), or `""`. -/
def getExtension (fileName : Str) : Str :=
  let lower := toLowerStr fileName
  if '.' ∈ lower then '.' :: (lower.reverse.takeWhile (· ≠ '.')).reverse
  else []

/-- Models `trimExtension` from `src/loaders/zipRuntimeLoader.ts`: everything
before the last `.`, or the whole name. -/
def trimExtension (fileName : Str) : Str :=
  if '.' ∈ fileName then
    ((fileName.reverse.dropWhile (· ≠ '.')).reverse).dropLast
  else fileName

def textureExtensions : List Str :=
  [".png".data, ".jpg".data, ".jpeg".data, ".webp".data, ".bmp".data,
   ".tga".data, ".tif".data, ".tiff".data]

/-- State threaded through the per-entry loop of `parseRuntimeZipAsset`:
the blob-URL and size maps, texture names, the `urlsToRevoke` set in
creation order, and the URL allocation counter. -/
structure BlobLoopState where
  blobUrls : List (Str × Nat)
  entrySizes : List (Str × Nat)
  textureFileNames : List Str
  created : List Nat
  nextUrl : Nat
deriving DecidableEq

/-- One iteration of the `for (const entry of allEntries)` loop of
`parseRuntimeZipAsset`: allocate a blob URL, bind the normalized full
name (unconditionally) and the basename (only when absent), record sizes
and texture names. -/
def blobLoopStep (st : BlobLoopState) (entry : ZipEntry) : BlobLoopState :=
  let extension := getExtension entry.name
  let objectUrl := st.nextUrl
  let created := st.created ++ [objectUrl]
  let normalized := normalizeAssetKey entry.name
  let blobUrls1 := setKey st.blobUrls normalized objectUrl
  let entrySizes1 := setKey st.entrySizes normalized entry.size
  let basename := lastSegment normalized
  let blobUrls2 :=
    if basename ≠ [] ∧ lookupKey blobUrls1 basename = none then
      setKey blobUrls1 basename objectUrl
    else blobUrls1
  let entrySizes2 :=
    if basename ≠ [] ∧ lookupKey entrySizes1 basename = none then
      setKey entrySizes1 basename entry.size
    else entrySizes1
  let textures :=
    if extension ∈ textureExtensions then st.textureFileNames ++ [entry.name]
    else st.textureFileNames
  ⟨blobUrls2, entrySizes2, textures, created, st.nextUrl + 1⟩

def blobLoop : List ZipEntry → BlobLoopState → BlobLoopState
  | [], st => st
  | e :: rest, st => blobLoop rest (blobLoopStep st e)

def initialBlobLoopState : BlobLoopState := ⟨[], [], [], [], 0⟩

def zipMissingMsg : Str := "ZIP is missing an .fbx file.".data

def zipExactlyOneMsg : Str :=
  "ZIP must contain exactly one .fbx file for v1 runtime loading.".data

def fbxNotAvailableMsg (fileName : Str) : Str :=
  "FBX file \"".data ++ fileName ++ "\" is not available in ZIP blob map.".data

/-- Models `loadFbxPackFromBlobMap` from `src/loaders/fbxPackLoader.ts`: resolve
the primary member's URL from the blob map (full normalized key, then
basename), fail when absent, otherwise parse (abstracted as `parseEnv`
applied to the member name). -/
def loadFbxPackFromBlobMap (parseEnv : Str → Except Str LoadedFbxPack)
    (fbxFileName : Str) (blobUrls : List (Str × Nat)) :
    Except Str LoadedFbxPack :=
  let normalizedFbx := normalizeAssetKey fbxFileName
  match lookupKey blobUrls normalizedFbx, lookupKey blobUrls (lastSegment normalizedFbx) with
  | none, none => .error (fbxNotAvailableMsg fbxFileName)
  | some _, _ => parseEnv fbxFileName
  | none, some _ => parseEnv fbxFileName

deriving instance DecidableEq for Except

/-- Models `ParsedZipAsset` from `src/types/assets.ts`. -/
structure ParsedZipAsset where
  kind : PackageKind
  name : Str
  fbxFileName : Str
  textureFileNames : List Str
  blobUrls : List (Str × Nat)
  zipSizeBytes : Nat
  fbxSizeBytes : Nat
deriving DecidableEq

/-- Observable outcome of one `parseRuntimeZipAsset` call: the returned
value or thrown error, the object URLs created during the call, and the
URLs revoked on the catch path before the error propagates.  On success
the `ok` payload carries the revocation list captured by the returned
`revoke` closure (deferred, so `revokedDuringCall = []`). -/
structure RuntimeZipOutcome where
  result : Except Str (ParsedZipAsset × LoadedFbxPack × List Nat)
  created : List Nat
  revokedDuringCall : List Nat
deriving DecidableEq

/-- Models `Object.values(zip.files).filter(entry => !entry.dir)`. -/
def allEntriesOf (files : List ZipEntry) : List ZipEntry :=
  files.filter (fun e => !e.dir)

/-- Models `allEntries.filter(entry => getExtension(entry.name) === ".fbx")`. -/
def fbxEntriesOf (files : List ZipEntry) : List ZipEntry :=
  (allEntriesOf files).filter (fun e => getExtension e.name = ".fbx".data)

/-- Models `parseRuntimeZipAsset` from `src/loaders/zipRuntimeLoader.ts`:
validate the `.fbx` member count, build the blob map, load the pack
through the blob map, and assemble the parsed asset; any throw after URL
creation revokes every created URL before propagating. -/
def parseRuntimeZipAsset (parseEnv : Str → Except Str LoadedFbxPack)
    (fileName : Str) (fileSize : Nat) (files : List ZipEntry) :
    RuntimeZipOutcome :=
  let allEntries := allEntriesOf files
  let fbxEntries := fbxEntriesOf files
  match fbxEntries with
  | [] => ⟨.error zipMissingMsg, [], []⟩
  | fbxEntry :: others =>
    if others ≠ [] then ⟨.error zipExactlyOneMsg, [], []⟩
    else
      let st := blobLoop allEntries initialBlobLoopState
      match loadFbxPackFromBlobMap parseEnv fbxEntry.name st.blobUrls with
      | .error e => ⟨.error e, st.created, st.created⟩
      | .ok pack =>
        let kind := detectPackageKind pack
        let normalizedFbx := normalizeAssetKey fbxEntry.name
        let fbxSizeBytes :=
          ((lookupKey st.entrySizes normalizedFbx).orElse
            (fun _ => lookupKey st.entrySizes (lastSegment normalizedFbx))).getD 0
        ⟨.ok (⟨kind, trimExtension fileName, fbxEntry.name,
            st.textureFileNames, st.blobUrls, fileSize, fbxSizeBytes⟩,
          pack, st.created), st.created, []⟩

/-! ### The pack registry (`CharacterLibrary` in
`src/characters/library.ts`)

Pack instances are identified by their index in an allocation list
(reference identity); `loadFbxPackFromUrl` is abstracted as a fetch
oracle from the URL to a pack or a thrown error, and
`resolveFileSizeBytesFromUrl` (best-effort, never throws) as a size
oracle. -/

inductive PackSource : Type where
  | manifest
  | runtime
deriving DecidableEq

/-- Models `PackEntry` from `src/characters/library.ts`. -/
structure PackEntry where
  id : String
  label : String
  kind : PackageKind
  source : PackSource
  fbxUrl : Option String
  fileSizeBytes : Option Nat
deriving DecidableEq

/-- Models `CharacterLibrary` instance state.  `allocatedPacks` is the heap of
pack objects ever produced or admitted; a pack reference is an index into
it. -/
structure LibState where
  modelEntries : List PackEntry
  clipEntries : List PackEntry
  modelCache : List (String × Nat)
  clipCache : List (String × Nat)
  runtimeRevokerIds : List String
  runtimeCounter : Nat
  allocatedPacks : List LoadedFbxPack
  fetchCount : Nat
deriving DecidableEq

/-- Models `entries.find(item => item.id === id)`. -/
def findEntry (entries : List PackEntry) (id : String) : Option PackEntry :=
  entries.find? (fun e => e.id == id)

/-- Replace the first entry with the given entry's id (models in-place
mutation of the found entry object). -/
def updateFirstEntry : List PackEntry → PackEntry → List PackEntry
  | [], _ => []
  | x :: rest, e => if x.id == e.id then e :: rest else x :: updateFirstEntry rest e

/-- Result of the private `loadEntry`: the returned pack reference or
thrown error, the (possibly size-probed) entry object, and the updated
cache/heap/fetch counter. -/
structure LoadEntryResult where
  result : Except String Nat
  entry : PackEntry
  cache : List (String × Nat)
  allocatedPacks : List LoadedFbxPack
  fetchCount : Nat
deriving DecidableEq

/-- Models `CharacterLibrary.loadEntry`: cache hit short-circuits; otherwise
require `fbxUrl`, probe the file size once, fetch/parse, cache by id. -/
def loadEntry (fetchEnv : String → Except String LoadedFbxPack)
    (sizeEnv : String → Option Nat) (entry : PackEntry)
    (cache : List (String × Nat)) (allocated : List LoadedFbxPack)
    (fetchCount : Nat) : LoadEntryResult :=
  match lookupKey cache entry.id with
  | some r => ⟨.ok r, entry, cache, allocated, fetchCount⟩
  | none =>
    match entry.fbxUrl with
    | none =>
      ⟨.error ("Pack \"" ++ entry.id ++ "\" is missing fbxUrl."), entry,
        cache, allocated, fetchCount⟩
    | some url =>
      let entry1 :=
        if entry.fileSizeBytes = none then
          { entry with fileSizeBytes := sizeEnv url }
        else entry
      match fetchEnv url with
      | .error e => ⟨.error e, entry1, cache, allocated, fetchCount + 1⟩
      | .ok pack =>
        ⟨.ok allocated.length, entry1, setKey cache entry.id allocated.length,
          allocated ++ [pack], fetchCount + 1⟩

/-- Models `CharacterLibrary.loadModelPack`. -/
def loadModelPack (fetchEnv : String → Except String LoadedFbxPack)
    (sizeEnv : String → Option Nat) (st : LibState) (id : String) :
    Except String (PackEntry × Nat) × LibState :=
  match findEntry st.modelEntries id with
  | none => (.error ("Model pack \"" ++ id ++ "\" is not registered."), st)
  | some entry =>
    let r := loadEntry fetchEnv sizeEnv entry st.modelCache st.allocatedPacks
      st.fetchCount
    let st' := { st with
      modelEntries := updateFirstEntry st.modelEntries r.entry,
      modelCache := r.cache,
      allocatedPacks := r.allocatedPacks,
      fetchCount := r.fetchCount }
    match r.result with
    | .error e => (.error e, st')
    | .ok packRef => (.ok (r.entry, packRef), st')

/-- Models `CharacterLibrary.loadClipPack`. -/
def loadClipPack (fetchEnv : String → Except String LoadedFbxPack)
    (sizeEnv : String → Option Nat) (st : LibState) (id : String) :
    Except String (PackEntry × Nat) × LibState :=
  match findEntry st.clipEntries id with
  | none => (.error ("Clip pack \"" ++ id ++ "\" is not registered."), st)
  | some entry =>
    let r := loadEntry fetchEnv sizeEnv entry st.clipCache st.allocatedPacks
      st.fetchCount
    let st' := { st with
      clipEntries := updateFirstEntry st.clipEntries r.entry,
      clipCache := r.cache,
      allocatedPacks := r.allocatedPacks,
      fetchCount := r.fetchCount }
    match r.result with
    | .error e => (.error e, st')
    | .ok packRef => (.ok (r.entry, packRef), st')

def isSlugChar (c : Char) : Bool :=
  ('a' ≤ c ∧ c ≤ 'z') ∨ ('0' ≤ c ∧ c ≤ '9')

/-- Models `label.toLowerCase().replace(/[^a-z0-9]+/g, "-")`: each maximal run
of non-slug characters becomes one `-`. -/
def slugCollapse : Str → Bool → Str
  | [], _ => []
  | c :: rest, prevDash =>
    if isSlugChar c then c :: slugCollapse rest false
    else if prevDash then slugCollapse rest true
    else '-' :: slugCollapse rest true

/-- The slug computation of `registerRuntimePack`, including the final
`.replace(/^-+|-+$/g, "")`. -/
def slugify (label : String) : String :=
  let collapsed := slugCollapse (toLowerStr label.data) false
  String.mk (((collapsed.dropWhile (· = '-')).reverse.dropWhile (· = '-')).reverse)

/-- Models `CharacterLibrary.registerRuntimePack`. -/
def registerRuntimePack (st : LibState) (kind : PackageKind) (label : String)
    (pack : LoadedFbxPack) (fileSizeBytes : Option Nat) :
    PackEntry × LibState :=
  let suffix := if kind = .model_with_clip then "model" else "clip"
  let slug := if slugify label = "" then "pack" else slugify label
  let id := "runtime-" ++ suffix ++ "-" ++ slug ++ "-" ++ toString st.runtimeCounter
  let entry : PackEntry := ⟨id, label, kind, .runtime, none, fileSizeBytes⟩
  let packRef := st.allocatedPacks.length
  let st' : LibState :=
    if kind = .model_with_clip then
      { st with
        modelEntries := st.modelEntries ++ [entry],
        modelCache := setKey st.modelCache id packRef,
        runtimeRevokerIds := st.runtimeRevokerIds ++ [id],
        runtimeCounter := st.runtimeCounter + 1,
        allocatedPacks := st.allocatedPacks ++ [pack] }
    else
      { st with
        clipEntries := st.clipEntries ++ [entry],
        clipCache := setKey st.clipCache id packRef,
        runtimeRevokerIds := st.runtimeRevokerIds ++ [id],
        runtimeCounter := st.runtimeCounter + 1,
        allocatedPacks := st.allocatedPacks ++ [pack] }
  (entry, st')

/-- The registration step of `onUploadZip` in the app shell: parse the
ZIP, and only on success register the resulting pack (the `catch` branch
only reports, leaving the library untouched). -/
def onUploadZip (parseEnv : Str → Except Str LoadedFbxPack) (st : LibState)
    (fileName : Str) (fileSize : Nat) (files : List ZipEntry) :
    LibState × Option PackEntry :=
  match (parseRuntimeZipAsset parseEnv fileName fileSize files).result with
  | .error _ => (st, none)
  | .ok (parsed, pack, _) =>
    let (entry, st') := registerRuntimePack st parsed.kind
      (String.mk parsed.name) pack (some parsed.fbxSizeBytes)
    (st', some entry)

/-! ### The slot binder (`CharacterSlot` in the slot module)

A slot's animation state: the mixer (present iff a model is loaded), the
recorded skeleton signature, attached clip-pack ids, the
`animationOptions` and `actions` maps keyed by clip id, and the active
clip id.  An `AnimationAction` is identified by its clip's object
identity (`mixer.clipAction` returns one cached action per clip
object). -/

inductive ClipSource : Type where
  | model
  | clip_pack
deriving DecidableEq

/-- Models `AnimationOption` from `src/types/assets.ts`. -/
structure AnimationOption where
  id : String
  label : String
  clip : ClipData
  source : ClipSource
  packId : String
deriving DecidableEq

structure SlotState where
  mixerPresent : Bool
  skeletonSignature : Option String
  attachedClipPackIds : List String
  animationOptions : List (String × AnimationOption)
  actions : List (String × Nat)
  activeClipId : String
deriving DecidableEq

/-- JS truthiness of a `string | null` value: present and non-empty. -/
def jsTruthyOptStr : Option String → Bool
  | none => false
  | some s => s ≠ ""

/-- Models `CharacterSlot.isCompatibleClipPack`:
`Boolean(this.skeletonSignature && signature && this.skeletonSignature === signature)`. -/
def isCompatibleClipPack (slotSig sig : Option String) : Bool :=
  jsTruthyOptStr slotSig && jsTruthyOptStr sig && decide (slotSig = sig)

def clipOptionId (packId : String) (i : Nat) : String :=
  "clip:" ++ packId ++ ":" ++ toString i

def jsTrimString (s : String) : String := String.mk (jsTrim s.data)

/-- Models `clip.name?.trim() || "Clip " + (i + 1)`. -/
def clipDisplayName (c : ClipData) (i : Nat) : String :=
  match c.name with
  | some n =>
    if jsTrimString n = "" then "Clip " ++ toString (i + 1) else jsTrimString n
  | none => "Clip " ++ toString (i + 1)

/-- The `for (let i = 0; ...)` loop of `attachClipPack`: register an
option and an action per clip, skipping clip ids already registered, and
collect the newly added ids. -/
def attachClipLoop (packId label : String) :
    List ClipData → Nat → List (String × AnimationOption) →
    List (String × Nat) →
    List String × List (String × AnimationOption) × List (String × Nat)
  | [], _, opts, acts => ([], opts, acts)
  | clip :: rest, i, opts, acts =>
    let clipId := clipOptionId packId i
    match lookupKey opts clipId with
    | some _ => attachClipLoop packId label rest (i + 1) opts acts
    | none =>
      let opt : AnimationOption :=
        ⟨clipId, label ++ " - " ++ clipDisplayName clip i, clip, .clip_pack,
          packId⟩
      let opts1 := setKey opts clipId opt
      let acts1 := setKey acts clipId clip.objId
      let r := attachClipLoop packId label rest (i + 1) opts1 acts1
      (clipId :: r.1, r.2)

/-- Models `CharacterSlot.attachClipPack`. -/
def attachClipPack (s : SlotState) (packId label : String)
    (clipPack : LoadedFbxPack) : List String × SlotState :=
  if !s.mixerPresent || s.attachedClipPackIds.contains packId then ([], s)
  else if !(isCompatibleClipPack s.skeletonSignature clipPack.skeletonSignature) then
    ([], s)
  else
    let r := attachClipLoop packId label clipPack.clips 0 s.animationOptions
      s.actions
    let attached1 :=
      if r.1 ≠ [] then s.attachedClipPackIds ++ [packId]
      else s.attachedClipPackIds
    (r.1, { s with
      animationOptions := r.2.1,
      actions := r.2.2,
      attachedClipPackIds := attached1 })

/-- Observable `AnimationAction` calls made by `playClip` (the 0.2
time-unit cross-fade duration is a float constant and is not carried). -/
inductive ActionEffect : Type where
  | stop (action : Nat)
  | reset (action : Nat)
  | play (action : Nat)
  | crossFadeFrom (action prev : Nat)
  | setEffectiveTimeScale (action : Nat)
  | setEffectiveWeight (action : Nat)
deriving DecidableEq

/-- Models `CharacterSlot.playClip`: returns the boolean result, the updated
slot state, and the action calls performed, in order. -/
def playClip (s : SlotState) (clipId : String) (immediate : Bool) :
    Bool × SlotState × List ActionEffect :=
  match lookupKey s.actions clipId with
  | none => (false, s, [])
  | some next =>
    let previous := lookupKey s.actions s.activeClipId
    if previous = some next then (true, s, [])
    else
      let effects :=
        match previous with
        | some prev =>
          if !immediate then
            [.reset next, .play next, .crossFadeFrom next prev]
          else [.stop prev, .reset next, .play next]
        | none => [.reset next, .play next]
      (true, { s with activeClipId := clipId },
        effects ++ [.setEffectiveTimeScale next, .setEffectiveWeight next])

/-- Witness for C9: a slot whose active clip `"model:m:0"` is registered;
replaying it is a no-op, and an unknown id returns `false`. -/
def exPlaySlot : SlotState :=
  ⟨true, some "hip", [], [], [("model:m:0", 7)], "model:m:0"⟩

/-- Claim C1 (counterexample): a slot with a loaded model of signature
`"a"` and a clip pack with the exactly equal non-null signature `"a"` but
zero clips: `attachClipPack` returns `[]`, not a non-empty list. -/
def exAttachSlot : SlotState := ⟨true, some "a", [], [], [], ""⟩

def exEmptyClipPack : LoadedFbxPack := ⟨[], false, some "a"⟩

/-- Witness for the amended C1 theorem: the gating branches and the
non-empty branch, each at a concrete slot and clip pack. -/
def exAttachSlotB : SlotState := ⟨true, some "hip", [], [], [], ""⟩

def exOneClipPack : LoadedFbxPack := ⟨[⟨some "Walk", 3⟩], false, some "hip"⟩

/-! ### Concrete fixtures used by the registry claims -/

def envSkinnedOk : String → Except String LoadedFbxPack :=
  fun _ => .ok ⟨[], true, some "hip"⟩

def sizeEnvNone : String → Option Nat := fun _ => none

/-- A library whose manifest declares a clip pack whose FBX actually
contains a skinned mesh (the manifest `kind` is taken on trust). -/
def misdeclaredLib : LibState :=
  ⟨[], [⟨"c", "Clips", .clip_only, .manifest, some "u", none⟩],
    [], [], [], 0, [], 0⟩

/-- Claim C6 (counterexample): the claim's full generality fails when a
manifest id matches the runtime id pattern.  A manifest model pack with
id `"runtime-model-pack-0"` is loaded (reference 0); a runtime
registration whose generated id collides overwrites the cache entry; the
next `loadModelPack` with the same id and no intervening `dispose()`
returns a different instance (reference 1). -/
def collideLib : LibState :=
  ⟨[⟨"runtime-model-pack-0", "Hero", .model_with_clip, .manifest,
      some "u", none⟩], [], [], [], [], 0, [], 0⟩

def collideEnv : String → Except String LoadedFbxPack :=
  fun _ => .ok ⟨[], true, none⟩

def collideSt1 : LibState :=
  (loadModelPack collideEnv sizeEnvNone collideLib "runtime-model-pack-0").2

def collideSt2 : LibState :=
  (registerRuntimePack collideSt1 .model_with_clip "pack" ⟨[], true, none⟩
    none).2

/-- Witness fixture for the amended C6 theorem: a concrete one-entry
library, where the first call fetches (reference 0) and the cache-hit
hypothesis is discharged by evaluation. -/
def witLib : LibState :=
  ⟨[⟨"m", "M", .model_with_clip, .manifest, some "u", none⟩],
    [], [], [], [], 0, [], 0⟩

def witEntry : PackEntry := ⟨"m", "M", .model_with_clip, .manifest, some "u", none⟩

def witSt1 : LibState :=
  ⟨[witEntry], [], [("m", 0)], [], [], 0, [⟨[], true, none⟩], 1⟩

/-- Witness for C7 at concrete archives: zero `.fbx` members, two `.fbx`
members, and exactly one. -/
def okParseEnv : Str → Except Str LoadedFbxPack :=
  fun _ => .ok ⟨[], true, some "hip"⟩

/-- Witness for C8: a ZIP whose single `.fbx` member fails to parse; two
URLs were created (for the `.fbx` and the texture) and both are revoked,
and the upload path leaves the library unchanged. -/
def failParseEnv : Str → Except Str LoadedFbxPack :=
  fun _ => .error "bad FBX".data

def emptyLib : LibState := ⟨[], [], [], [], [], 0, [], 0⟩

/-- Concrete three-member archive with distinct normalized paths, for
the C10 witness. -/
def exZipEntries : List ZipEntry :=
  [⟨"m.fbx".data, false, 4⟩, ⟨"dir/a.png".data, false, 1⟩,
    ⟨"sub/b.png".data, false, 2⟩]

/-! ### Facts about the character-level JS primitives -/

lemma toNat_ofNat_valid (n : Nat) (h : Nat.isValidChar n) :
    (Char.ofNat n).toNat = n := by
  unfold Char.ofNat
  simp only [Char.ofNatAux, h, dite_true, Char.toNat, UInt32.toNat]
  rfl

lemma jsToLower_toNat (c : Char) :
    (jsToLower c).toNat =
      if c.toNat ≥ 65 ∧ c.toNat ≤ 90 then c.toNat + 32 else c.toNat := by
  unfold jsToLower
  by_cases h : c.toNat ≥ 65 ∧ c.toNat ≤ 90
  · have hv : Nat.isValidChar (c.toNat + 32) := by
      left
      omega
    simp [h, toNat_ofNat_valid _ hv]
  · simp [h]

lemma jsToLower_of_not_upper (c : Char)
    (h : ¬ (c.toNat ≥ 65 ∧ c.toNat ≤ 90)) : jsToLower c = c := by
  unfold jsToLower
  simp [h]

lemma char_eq_of_toNat_eq {c d : Char} (h : c.toNat = d.toNat) : c = d := by
  have hc := Char.ofNat_toNat c
  have hd := Char.ofNat_toNat d
  rw [← hc, ← hd, h]

lemma jsToLower_idem (c : Char) : jsToLower (jsToLower c) = jsToLower c := by
  by_cases h : c.toNat ≥ 65 ∧ c.toNat ≤ 90
  · apply jsToLower_of_not_upper
    rw [jsToLower_toNat, if_pos h]
    omega
  · rw [jsToLower_of_not_upper c h]
    exact jsToLower_of_not_upper c h

lemma isJsWhitespace_jsToLower (c : Char) :
    isJsWhitespace (jsToLower c) = isJsWhitespace c := by
  unfold isJsWhitespace
  by_cases h : c.toNat ≥ 65 ∧ c.toNat ≤ 90
  · have h1 := jsToLower_toNat c
    rw [if_pos h] at h1
    rw [h1, decide_eq_decide]
    omega
  · rw [jsToLower_of_not_upper c h]

lemma jsToLower_ne_backslash (c : Char) (h : c ≠ '\\') :
    jsToLower c ≠ '\\' := by
  intro hc
  apply h
  have ht : (jsToLower c).toNat = ('\\' : Char).toNat := by rw [hc]
  rw [jsToLower_toNat] at ht
  have hb : ('\\' : Char).toNat = 92 := by decide
  rw [hb] at ht
  have hcn : c.toNat = 92 := by
    by_cases hu : c.toNat ≥ 65 ∧ c.toNat ≤ 90
    · rw [if_pos hu] at ht
      omega
    · rwa [if_neg hu] at ht
  exact char_eq_of_toNat_eq (hcn.trans hb.symm)

/-! ### Fixed-point lemmas used for the idempotence analysis of
`normalizeAssetKey` -/

lemma toLowerStr_idem (l : Str) : toLowerStr (toLowerStr l) = toLowerStr l := by
  unfold toLowerStr
  rw [List.map_map]
  apply List.map_congr_left
  intro c _
  exact jsToLower_idem c

lemma ws_comp_jsToLower : (isJsWhitespace ∘ jsToLower) = isJsWhitespace :=
  funext isJsWhitespace_jsToLower

lemma jsTrimStart_toLowerStr (l : Str) :
    jsTrimStart (toLowerStr l) = toLowerStr (jsTrimStart l) := by
  unfold jsTrimStart toLowerStr
  rw [List.dropWhile_map, ws_comp_jsToLower]

lemma jsTrimEnd_toLowerStr (l : Str) :
    jsTrimEnd (toLowerStr l) = toLowerStr (jsTrimEnd l) := by
  unfold jsTrimEnd toLowerStr
  rw [← List.map_reverse, List.dropWhile_map, ws_comp_jsToLower,
    ← List.map_reverse]

lemma jsTrim_toLowerStr (l : Str) :
    jsTrim (toLowerStr l) = toLowerStr (jsTrim l) := by
  unfold jsTrim
  rw [jsTrimStart_toLowerStr, jsTrimEnd_toLowerStr]

lemma jsTrimStart_idem (l : Str) : jsTrimStart (jsTrimStart l) = jsTrimStart l :=
  List.dropWhile_idempotent _ _

lemma jsTrimEnd_idem (l : Str) : jsTrimEnd (jsTrimEnd l) = jsTrimEnd l := by
  unfold jsTrimEnd
  rw [List.reverse_reverse, List.dropWhile_idempotent]

lemma jsTrimEnd_prefix_self (l : Str) : jsTrimEnd l <+: l := by
  unfold jsTrimEnd
  rw [← List.reverse_reverse l]
  exact List.reverse_suffix.mp (by rw [List.reverse_reverse, List.reverse_reverse]; exact List.dropWhile_suffix _)

lemma dropWhile_eq_self_of_head (p : Char → Bool) (l : Str)
    (h : l.dropWhile p = l) : ∀ m, m <+: l → m.dropWhile p = m := by
  intro m hm
  cases m with
  | nil => rfl
  | cons c r =>
    obtain ⟨rest, hrest⟩ := hm
    have hc : p c = false := by
      by_contra hpc
      have hpc' : p c = true := by
        cases hp : p c
        · exact absurd hp hpc
        · rfl
      rw [← hrest] at h
      rw [List.cons_append, List.dropWhile_cons_of_pos hpc'] at h
      have hlen := congrArg List.length h
      have hle := (List.dropWhile_suffix (l := r ++ rest) p).length_le
      rw [List.length_cons] at hlen
      omega
    rw [List.dropWhile_cons, hc]
    simp

lemma jsTrimStart_jsTrimEnd_of_trimmed (l : Str)
    (h : jsTrimStart l = l) : jsTrimStart (jsTrimEnd l) = jsTrimEnd l :=
  dropWhile_eq_self_of_head _ l h _ (jsTrimEnd_prefix_self l)

lemma jsTrim_idem (l : Str) : jsTrim (jsTrim l) = jsTrim l := by
  unfold jsTrim
  rw [jsTrimStart_jsTrimEnd_of_trimmed _ (jsTrimStart_idem l), jsTrimEnd_idem]

lemma mem_of_mem_stripDotSlash {c : Char} {l : Str}
    (h : c ∈ stripDotSlash l) : c ∈ l := by
  unfold stripDotSlash at h
  split at h <;> simp_all

lemma mem_of_mem_stripDrive {c : Char} {l : Str}
    (h : c ∈ stripDrive l) : c ∈ l := by
  unfold stripDrive at h
  split at h
  · split at h <;> simp_all
  · exact h

lemma mem_of_mem_stripFileScheme {c : Char} {l : Str}
    (h : c ∈ stripFileScheme l) : c ∈ l := by
  unfold stripFileScheme at h
  split at h
  · split at h
    · rename_i a b cc d e rest _
      have h1 : c ∈ rest := (List.dropWhile_suffix _).subset h
      simp [h1]
    · exact h
  · exact h

lemma mem_of_mem_stripLeadingSlash {c : Char} {l : Str}
    (h : c ∈ stripLeadingSlash l) : c ∈ l := by
  unfold stripLeadingSlash at h
  split at h <;> simp_all

lemma mem_of_mem_jsTrim {c : Char} {l : Str} (h : c ∈ jsTrim l) : c ∈ l := by
  unfold jsTrim jsTrimEnd jsTrimStart at h
  rw [List.mem_reverse] at h
  have h1 := (List.dropWhile_suffix isJsWhitespace).subset h
  rw [List.mem_reverse] at h1
  exact (List.dropWhile_suffix isJsWhitespace).subset h1

lemma not_mem_replaceBackslashes (l : Str) : '\\' ∉ replaceBackslashes l := by
  intro h
  unfold replaceBackslashes at h
  obtain ⟨c, _, hc⟩ := List.mem_map.mp h
  by_cases hb : c = '\\' <;> simp [hb] at hc

lemma not_backslash_mem_normalizeAssetKey (s : Str) :
    '\\' ∉ normalizeAssetKey s := by
  intro h
  unfold normalizeAssetKey toLowerStr at h
  obtain ⟨c, hc, hlow⟩ := List.mem_map.mp h
  have hcb : c = '\\' := by
    by_contra hne
    exact jsToLower_ne_backslash c hne hlow
  subst hcb
  exact not_mem_replaceBackslashes s
    (mem_of_mem_stripDotSlash (mem_of_mem_stripDrive (mem_of_mem_stripFileScheme
      (mem_of_mem_stripLeadingSlash (mem_of_mem_jsTrim hc)))))

lemma replaceBackslashes_eq_self {l : Str} (h : '\\' ∉ l) :
    replaceBackslashes l = l := by
  unfold replaceBackslashes
  have : ∀ c ∈ l, (if c = '\\' then '/' else c) = c := by
    intro c hc
    have : c ≠ '\\' := fun he => h (he ▸ hc)
    simp [this]
  simpa using List.map_congr_left (g := id) this

lemma toLowerStr_jsTrim_fix (s : Str) :
    toLowerStr (jsTrim (normalizeAssetKey s)) = normalizeAssetKey s := by
  show toLowerStr (jsTrim (toLowerStr (jsTrim (stripLeadingSlash (stripFileScheme
    (stripDrive (stripDotSlash (replaceBackslashes s)))))))) = _
  rw [jsTrim_toLowerStr, jsTrim_idem, toLowerStr_idem]
  rfl

/-- Claim C2 (counterexample): the key normalizer is not idempotent.  For
the input `" /a"` the leading whitespace hides the leading slash from the
prefix-stripping steps, the final `trim` exposes it, and a second
application then strips it: `normalize(" /a") = "/a"` but
`normalize(normalize(" /a")) = "a"`. -/
theorem normalizeAssetKey_not_idempotent :
    normalizeAssetKey (normalizeAssetKey " /a".data) ≠
      normalizeAssetKey " /a".data := by decide

/-- Claim C2 (amended): the key normalizer is idempotent on exactly those
inputs whose normalized form is not itself further reducible by one of the
four prefix-stripping steps (leading `./` or `/`, drive prefix, `file:`
scheme, leading slash).  Backslash replacement, trimming and lower-casing
are always idempotent on the output; only a strippable prefix surviving
into the output (hidden by leading whitespace or by stacked prefixes)
breaks idempotence. -/
theorem normalizeAssetKey_idem_of_no_strippable (s : Str)
    (h1 : stripDotSlash (normalizeAssetKey s) = normalizeAssetKey s)
    (h2 : stripDrive (normalizeAssetKey s) = normalizeAssetKey s)
    (h3 : stripFileScheme (normalizeAssetKey s) = normalizeAssetKey s)
    (h4 : stripLeadingSlash (normalizeAssetKey s) = normalizeAssetKey s) :
    normalizeAssetKey (normalizeAssetKey s) = normalizeAssetKey s := by
  have hb := replaceBackslashes_eq_self (not_backslash_mem_normalizeAssetKey s)
  calc normalizeAssetKey (normalizeAssetKey s)
      = toLowerStr (jsTrim (stripLeadingSlash (stripFileScheme (stripDrive
          (stripDotSlash (replaceBackslashes (normalizeAssetKey s))))))) := rfl
    _ = toLowerStr (jsTrim (normalizeAssetKey s)) := by rw [hb, h1, h2, h3, h4]
    _ = normalizeAssetKey s := toLowerStr_jsTrim_fix s

/-- Witness for the amended C2 theorem at the concrete input `"C:/A/b.png"`. -/
theorem normalizeAssetKey_idem_of_no_strippable_witness :
    normalizeAssetKey (normalizeAssetKey "C:/A/b.png".data) =
      normalizeAssetKey "C:/A/b.png".data :=
  normalizeAssetKey_idem_of_no_strippable "C:/A/b.png".data
    (by decide) (by decide) (by decide) (by decide)

lemma jsDecodeURIComponent_of_no_pct (l : Str) (h : '%' ∉ l) :
    jsDecodeURIComponent l = some l := by
  induction l with
  | nil => rfl
  | cons c rest ih =>
    have hc : c ≠ '%' := fun he => h (he ▸ List.mem_cons_self c rest)
    have hr : '%' ∉ rest := fun hm => h (List.mem_cons_of_mem c hm)
    unfold jsDecodeURIComponent
    rw [if_neg hc, ih hr]
    rfl

lemma takeWhile_ne_of_not_mem (l : Str) (c : Char) (h : c ∉ l) :
    l.takeWhile (· ≠ c) = l := by
  rw [List.takeWhile_eq_self_iff]
  intro x hx
  simp only [ne_eq, decide_eq_true_eq]
  exact fun he => h (he ▸ hx)

lemma addCandidate_head (n k : Str) (cs : List Str)
    (h : ∃ r, cs = n :: r) : ∃ r, addCandidate cs k = n :: r := by
  obtain ⟨r, rfl⟩ := h
  unfold addCandidate
  split
  · exact ⟨r, rfl⟩
  · exact ⟨r ++ [k], rfl⟩

lemma candidatesStep2_head (n m : Str) (cs : List Str)
    (h : ∃ r, cs = n :: r) : ∃ r, candidatesStep2 m cs = n :: r := by
  unfold candidatesStep2
  split
  · exact addCandidate_head n _ cs h
  · exact h

lemma candidatesStep3_head (n m : Str) (cs : List Str)
    (h : ∃ r, cs = n :: r) : ∃ r, candidatesStep3 m cs = n :: r := by
  unfold candidatesStep3
  split
  · dsimp only
    split
    · split
      · exact addCandidate_head n _ _ (addCandidate_head n _ cs h)
      · exact addCandidate_head n _ cs h
    · exact h
  · exact h

lemma buildCandidates_head (n : Str) (hn : n ≠ []) :
    ∃ rest, buildCandidates n = n :: rest := by
  apply candidatesStep3_head
  apply candidatesStep2_head
  unfold candidatesStep1
  rw [if_pos hn]
  exact ⟨[], rfl⟩

lemma firstCandidateHit_head (n h : Str) (rest : List Str)
    (tbl : List (Str × Str)) (hl : lookupKey tbl n = some h) (hv : h ≠ []) :
    firstCandidateHit (n :: rest) tbl = some h := by
  unfold firstCandidateHit
  rw [hl]
  simp [hv]

/-- Claim C5 (counterexample): round-trip resolution fails for a member
whose name contains a `?` character.  The table is keyed by the member's
normalized name, but `resolveBlobUrl` strips everything after the first
`?` before normalizing, so the lookup misses and the raw request string is
returned instead of the member's handle. -/
theorem resolveBlobUrl_roundtrip_counterexample :
    resolveBlobUrl "a?b.png".data
        [(normalizeAssetKey "a?b.png".data, "blob:h".data)] =
      "a?b.png".data ∧
    resolveBlobUrl "a?b.png".data
        [(normalizeAssetKey "a?b.png".data, "blob:h".data)] ≠
      "blob:h".data := by
  constructor
  · decide
  · decide

/-- Claim C5 (amended): round-trip resolution succeeds for every member
whose name does not start with `blob:`, contains no `%`, `?` or `#`
character (those are consumed by URI decoding and query/fragment
stripping before the table is consulted), and whose normalized name is
non-empty, given a table that maps the member's normalized name to its
(non-empty) handle. -/
theorem resolveBlobUrl_roundtrip (name h : Str) (tbl : List (Str × Str))
    (hb : "blob:".data.isPrefixOf name = false)
    (hp : '%' ∉ name) (hq : '?' ∉ name) (hhash : '#' ∉ name)
    (hne : normalizeAssetKey name ≠ [])
    (hl : lookupKey tbl (normalizeAssetKey name) = some h)
    (hv : h ≠ []) :
    resolveBlobUrl name tbl = h := by
  obtain ⟨rest, hcs⟩ := buildCandidates_head (normalizeAssetKey name) hne
  have hdec : safeDecode name = name := by
    rw [safeDecode, jsDecodeURIComponent_of_no_pct name hp]
    rfl
  have hq' : splitHead name '?' = name := takeWhile_ne_of_not_mem name '?' hq
  have hh' : splitHead name '#' = name := takeWhile_ne_of_not_mem name '#' hhash
  unfold resolveBlobUrl
  rw [hb]
  simp only [Bool.false_eq_true, if_false, hdec, hq', hh', hcs,
    firstCandidateHit_head (normalizeAssetKey name) h rest tbl hl hv]

/-- Witness for the amended C5 theorem at the member name
`"Textures/Wood.png"`. -/
theorem resolveBlobUrl_roundtrip_witness :
    resolveBlobUrl "Textures/Wood.png".data
      [(normalizeAssetKey "Textures/Wood.png".data, "blob:url-7".data)] =
      "blob:url-7".data :=
  resolveBlobUrl_roundtrip "Textures/Wood.png".data "blob:url-7".data _
    (by decide) (by decide) (by decide) (by decide) (by decide) (by decide)
    (by decide)

lemma computeSkeletonSignature_eq (root : SceneNode) :
    computeSkeletonSignature root =
      if effectiveBoneNames root = [] then none
      else some (joinPipe (effectiveBoneNames root)) := by
  unfold computeSkeletonSignature effectiveBoneNames
  split
  · dsimp only
    split
    · rfl
    · rfl
  · rfl

/-- Claim C4: (1) two scene graphs whose skeletons yield identical
non-empty trimmed/lower-cased bone-name lists get equal signatures;
(2) a graph with zero bone nodes and no skinned mesh gets signature
`null`. -/
theorem computeSkeletonSignature_claim (A B : SceneNode) :
    (effectiveBoneNames A = effectiveBoneNames B → effectiveBoneNames A ≠ [] →
      computeSkeletonSignature A = computeSkeletonSignature B) ∧
    (collectSkinnedBones A = [] → collectBoneNames A = [] →
      computeSkeletonSignature A = none) := by
  constructor
  · intro hAB _
    rw [computeSkeletonSignature_eq, computeSkeletonSignature_eq, hAB]
  · intro hsk hb
    unfold computeSkeletonSignature
    rw [hsk]
    have hf : fallbackBoneNames A = [] := by
      unfold fallbackBoneNames
      rw [hb]
      rfl
    rw [if_pos hf]

/-- Witness for C4 at concrete graphs: the skinned-mesh graph and the
bone-node graph share the processed list `["hip", "spine"]` and get the
same signature; the empty graph gets `null`. -/
theorem computeSkeletonSignature_claim_witness :
    computeSkeletonSignature exSkinnedGraph =
      computeSkeletonSignature exBoneGraph ∧
    computeSkeletonSignature exEmptyGraph = none :=
  ⟨(computeSkeletonSignature_claim exSkinnedGraph exBoneGraph).1
      (by decide) (by decide),
   (computeSkeletonSignature_claim exEmptyGraph exEmptyGraph).2
      (by decide) (by decide)⟩

/-! ### Claims about the slot binder -/

/-- Claim C9: `playClip` returns `false` when the clip id is not
registered; called with the already-active clip's id it returns `true`,
performs no action calls (nothing stopped, reset, or restarted), and
leaves the slot state (in particular the active clip id) unchanged. -/
theorem playClip_claim (s : SlotState) (clipId : String) (immediate : Bool) :
    (lookupKey s.actions clipId = none →
      playClip s clipId immediate = (false, s, [])) ∧
    (clipId = s.activeClipId → (∃ a, lookupKey s.actions clipId = some a) →
      playClip s clipId immediate = (true, s, [])) := by
  constructor
  · intro h
    unfold playClip
    rw [h]
  · intro heq hex
    obtain ⟨a, ha⟩ := hex
    subst heq
    unfold playClip
    rw [ha]
    simp

theorem playClip_claim_witness :
    playClip exPlaySlot "nope" false = (false, exPlaySlot, []) ∧
    playClip exPlaySlot "model:m:0" false = (true, exPlaySlot, []) :=
  ⟨(playClip_claim exPlaySlot "nope" false).1 (by decide),
   (playClip_claim exPlaySlot "model:m:0" false).2 (by decide)
     ⟨7, by decide⟩⟩

lemma isCompatibleClipPack_none_left (sig : Option String) :
    isCompatibleClipPack none sig = false := rfl

lemma isCompatibleClipPack_none_right (sig : Option String) :
    isCompatibleClipPack sig none = false := by
  unfold isCompatibleClipPack jsTruthyOptStr
  simp

lemma isCompatibleClipPack_ne (a b : String) (h : a ≠ b) :
    isCompatibleClipPack (some a) (some b) = false := by
  unfold isCompatibleClipPack
  simp [h]

theorem attachClipPack_nonempty_counterexample :
    exAttachSlot.skeletonSignature = some "a" ∧
    exEmptyClipPack.skeletonSignature = some "a" ∧
    (attachClipPack exAttachSlot "p" "P" exEmptyClipPack).1 = [] := by
  refine ⟨rfl, rfl, ?_⟩
  decide

/-- Claim C1 (amended): `attachClipPack` returns `[]` when the slot has
no model (no mixer), when either skeleton signature is null (or empty),
when the two signatures are unequal, or when the clip pack id was already
attached; it returns a non-empty list whenever the two signatures are
exactly equal non-null non-empty strings, the pack id is not already
attached, and the pack has at least one clip whose first option id is not
already registered. -/
theorem attachClipPack_gate (s : SlotState) (packId label : String)
    (pack : LoadedFbxPack) :
    (s.mixerPresent = false → (attachClipPack s packId label pack).1 = []) ∧
    (s.skeletonSignature = none → (attachClipPack s packId label pack).1 = []) ∧
    (pack.skeletonSignature = none → (attachClipPack s packId label pack).1 = []) ∧
    (∀ a b, s.skeletonSignature = some a → pack.skeletonSignature = some b →
      a ≠ b → (attachClipPack s packId label pack).1 = []) ∧
    (s.attachedClipPackIds.contains packId = true →
      (attachClipPack s packId label pack).1 = []) ∧
    (∀ t c rest, s.mixerPresent = true →
      s.attachedClipPackIds.contains packId = false →
      s.skeletonSignature = some t → pack.skeletonSignature = some t →
      t ≠ "" → pack.clips = c :: rest →
      lookupKey s.animationOptions (clipOptionId packId 0) = none →
      (attachClipPack s packId label pack).1 ≠ []) := by
  refine ⟨?_, ?_, ?_, ?_, ?_, ?_⟩
  · intro h
    unfold attachClipPack
    rw [h]
    rfl
  · intro h
    unfold attachClipPack
    split
    · rfl
    · rw [h, isCompatibleClipPack_none_left]
      rfl
  · intro h
    unfold attachClipPack
    split
    · rfl
    · rw [h, isCompatibleClipPack_none_right]
      rfl
  · intro a b ha hb hne
    unfold attachClipPack
    split
    · rfl
    · rw [ha, hb, isCompatibleClipPack_ne a b hne]
      rfl
  · intro h
    unfold attachClipPack
    rw [h]
    simp
  · intro t c rest hm hatt hs hp ht hc hlk
    unfold attachClipPack
    rw [hm, hatt, hs, hp, hc]
    have hcompat : isCompatibleClipPack (some t) (some t) = true := by
      unfold isCompatibleClipPack jsTruthyOptStr
      simp [ht]
    rw [hcompat]
    simp [hlk]
    unfold attachClipLoop
    simp [hlk]

theorem attachClipPack_gate_witness :
    (attachClipPack ⟨false, some "hip", [], [], [], ""⟩ "p" "P" exOneClipPack).1 = [] ∧
    (attachClipPack exAttachSlotB "p" "P" ⟨[], false, some "neck"⟩).1 = [] ∧
    (attachClipPack exAttachSlotB "p" "P" exOneClipPack).1 ≠ [] :=
  ⟨(attachClipPack_gate ⟨false, some "hip", [], [], [], ""⟩ "p" "P"
      exOneClipPack).1 (by decide),
   (attachClipPack_gate exAttachSlotB "p" "P" ⟨[], false, some "neck"⟩).2.2.2.1
      "hip" "neck" (by decide) (by decide) (by decide),
   (attachClipPack_gate exAttachSlotB "p" "P" exOneClipPack).2.2.2.2.2
      "hip" ⟨some "Walk", 3⟩ [] (by decide) (by decide) (by decide) (by decide)
      (by decide) (by decide) (by decide)⟩

/-! ### Claims about the pack registry -/

/-- Claim C3 (counterexample): a manifest-declared clip pack backed by an
FBX with a skinned mesh is handed out with `kind = clip_only` while the
loaded pack has `hasSkinnedMesh = true`; the kind/skinned-mesh invariant
fails for manifest-loaded entries because `normalizeManifestItem` and
`loadEntry` never reconcile the declared kind with the parsed content. -/
theorem packKind_invariant_counterexample :
    ((loadClipPack envSkinnedOk sizeEnvNone misdeclaredLib "c").1.toOption.map
      (fun p => p.1.kind)) = some .clip_only ∧
    ((loadClipPack envSkinnedOk sizeEnvNone misdeclaredLib "c").2.allocatedPacks.head?.map
      (fun p => p.hasSkinnedMesh)) = some true := by
  constructor
  · decide
  · decide

/-- Claim C3 (amended): for runtime-registered packs the invariant holds:
the upload path computes the kind via `detectPackageKind`, so the
registered entry's kind is `model_with_clip` iff the pack has a skinned
mesh.  Manifest-loaded entries carry the manifest's declared kind,
unverified against the loaded pack. -/
theorem registerRuntimePack_kind_invariant (st : LibState) (label : String)
    (pack : LoadedFbxPack) (fsz : Option Nat) :
    (registerRuntimePack st (detectPackageKind pack) label pack fsz).1.kind =
      PackageKind.model_with_clip ↔ pack.hasSkinnedMesh = true := by
  cases h : pack.hasSkinnedMesh <;>
    simp [registerRuntimePack, detectPackageKind, h]

/-- Witness for the amended C3 theorem at a concrete skinned pack. -/
theorem registerRuntimePack_kind_invariant_witness :
    (registerRuntimePack misdeclaredLib
        (detectPackageKind ⟨[], true, some "hip"⟩) "Hero"
        ⟨[], true, some "hip"⟩ none).1.kind = PackageKind.model_with_clip ↔
      (⟨[], true, some "hip"⟩ : LoadedFbxPack).hasSkinnedMesh = true :=
  registerRuntimePack_kind_invariant misdeclaredLib "Hero"
    ⟨[], true, some "hip"⟩ none

lemma lookup_setKey_self {α β : Type} [DecidableEq α] (m : List (α × β))
    (k : α) (v : β) : lookupKey (setKey m k v) k = some v := by
  induction m with
  | nil => simp [setKey, lookupKey]
  | cons kv rest ih =>
    obtain ⟨k0, v0⟩ := kv
    unfold setKey
    by_cases h : k0 = k
    · rw [if_pos h]
      simp [lookupKey]
    · rw [if_neg h]
      unfold lookupKey
      rw [if_neg h]
      exact ih

lemma lookup_setKey_ne {α β : Type} [DecidableEq α] (m : List (α × β))
    (k k' : α) (v : β) (h : k' ≠ k) :
    lookupKey (setKey m k v) k' = lookupKey m k' := by
  induction m with
  | nil =>
    unfold setKey lookupKey
    rw [if_neg (fun he => h he.symm)]
    rfl
  | cons kv rest ih =>
    obtain ⟨k0, v0⟩ := kv
    unfold setKey
    by_cases h0 : k0 = k
    · subst h0
      rw [if_pos rfl]
      unfold lookupKey
      rw [if_neg (fun he => h he.symm), if_neg (fun he => h he.symm)]
    · rw [if_neg h0]
      unfold lookupKey
      by_cases h1 : k0 = k'
      · rw [if_pos h1, if_pos h1]
      · rw [if_neg h1, if_neg h1]
        exact ih

lemma findEntry_id {l : List PackEntry} {id : String} {e : PackEntry}
    (h : findEntry l id = some e) : e.id = id := by
  have := List.find?_some h
  simpa using this

lemma updateFirstEntry_self (l : List PackEntry) (e : PackEntry)
    (h : findEntry l e.id = some e) : updateFirstEntry l e = l := by
  induction l with
  | nil => rfl
  | cons x rest ih =>
    unfold updateFirstEntry
    unfold findEntry at h
    rw [List.find?_cons] at h
    by_cases hx : (x.id == e.id) = true
    · rw [if_pos hx]
      rw [hx] at h
      simp only [] at h
      have hxe : x = e := by simpa using h
      rw [hxe]
    · have hx' : (x.id == e.id) = false := by simpa using hx
      rw [if_neg hx]
      rw [hx'] at h
      simp only [] at h
      rw [ih h]

lemma findEntry_updateFirst (l : List PackEntry) (id : String)
    (e e' : PackEntry) (h : findEntry l id = some e) (hid : e'.id = id) :
    findEntry (updateFirstEntry l e') id = some e' := by
  induction l with
  | nil => simp [findEntry] at h
  | cons x rest ih =>
    unfold findEntry at h ⊢
    rw [List.find?_cons] at h
    unfold updateFirstEntry
    by_cases hx : (x.id == e'.id) = true
    · rw [if_pos hx]
      rw [List.find?_cons]
      have he : (e'.id == id) = true := by simp [hid]
      rw [he]
    · have hxid : (x.id == id) = false := by
        rw [← hid]
        simpa using hx
      rw [if_neg hx]
      rw [List.find?_cons, hxid]
      rw [hxid] at h
      simp only [] at h ⊢
      exact ih h

lemma loadEntry_hit (fetchEnv : String → Except String LoadedFbxPack)
    (sizeEnv : String → Option Nat) (entry : PackEntry)
    (cache : List (String × Nat)) (alloc : List LoadedFbxPack) (fc : Nat)
    (r : Nat) (h : lookupKey cache entry.id = some r) :
    loadEntry fetchEnv sizeEnv entry cache alloc fc =
      ⟨.ok r, entry, cache, alloc, fc⟩ := by
  unfold loadEntry
  rw [h]

lemma loadEntry_miss_ok (fetchEnv : String → Except String LoadedFbxPack)
    (sizeEnv : String → Option Nat) (entry : PackEntry)
    (cache : List (String × Nat)) (alloc : List LoadedFbxPack) (fc : Nat)
    (url : String) (pack : LoadedFbxPack)
    (h1 : lookupKey cache entry.id = none) (h2 : entry.fbxUrl = some url)
    (h3 : fetchEnv url = .ok pack) :
    loadEntry fetchEnv sizeEnv entry cache alloc fc =
      ⟨.ok alloc.length,
        (if entry.fileSizeBytes = none then
          { entry with fileSizeBytes := sizeEnv url }
        else entry),
        setKey cache entry.id alloc.length, alloc ++ [pack], fc + 1⟩ := by
  unfold loadEntry
  rw [h1, h2]
  dsimp only
  rw [h3]

lemma loadEntry_miss_noUrl (fetchEnv : String → Except String LoadedFbxPack)
    (sizeEnv : String → Option Nat) (entry : PackEntry)
    (cache : List (String × Nat)) (alloc : List LoadedFbxPack) (fc : Nat)
    (h1 : lookupKey cache entry.id = none) (h2 : entry.fbxUrl = none) :
    loadEntry fetchEnv sizeEnv entry cache alloc fc =
      ⟨.error ("Pack \"" ++ entry.id ++ "\" is missing fbxUrl."), entry,
        cache, alloc, fc⟩ := by
  unfold loadEntry
  rw [h1, h2]

lemma loadEntry_miss_err (fetchEnv : String → Except String LoadedFbxPack)
    (sizeEnv : String → Option Nat) (entry : PackEntry)
    (cache : List (String × Nat)) (alloc : List LoadedFbxPack) (fc : Nat)
    (url : String) (e : String)
    (h1 : lookupKey cache entry.id = none) (h2 : entry.fbxUrl = some url)
    (h3 : fetchEnv url = .error e) :
    loadEntry fetchEnv sizeEnv entry cache alloc fc =
      ⟨.error e,
        (if entry.fileSizeBytes = none then
          { entry with fileSizeBytes := sizeEnv url }
        else entry),
        cache, alloc, fc + 1⟩ := by
  unfold loadEntry
  rw [h1, h2]
  dsimp only
  rw [h3]

lemma loadModelPack_noEntry (fetchEnv : String → Except String LoadedFbxPack)
    (sizeEnv : String → Option Nat) (st : LibState) (id : String)
    (h : findEntry st.modelEntries id = none) :
    loadModelPack fetchEnv sizeEnv st id =
      (.error ("Model pack \"" ++ id ++ "\" is not registered."), st) := by
  unfold loadModelPack
  rw [h]

lemma loadModelPack_entry (fetchEnv : String → Except String LoadedFbxPack)
    (sizeEnv : String → Option Nat) (st : LibState) (id : String)
    (entry : PackEntry) (re : LoadEntryResult)
    (h : findEntry st.modelEntries id = some entry)
    (hr : loadEntry fetchEnv sizeEnv entry st.modelCache st.allocatedPacks
      st.fetchCount = re) :
    loadModelPack fetchEnv sizeEnv st id =
      (match re.result with
       | .error e => (.error e, { st with
            modelEntries := updateFirstEntry st.modelEntries re.entry,
            modelCache := re.cache,
            allocatedPacks := re.allocatedPacks,
            fetchCount := re.fetchCount })
       | .ok packRef => (.ok (re.entry, packRef), { st with
            modelEntries := updateFirstEntry st.modelEntries re.entry,
            modelCache := re.cache,
            allocatedPacks := re.allocatedPacks,
            fetchCount := re.fetchCount })) := by
  unfold loadModelPack
  rw [h]
  dsimp only
  rw [hr]

/-- Claim C6 (amended): a successful `loadModelPack` call followed
immediately by a second call with the same id returns the identical pack
reference, leaves the registry state unchanged, and performs at most one
underlying fetch across both calls. -/
theorem loadModelPack_cache_identity (fetchEnv : String → Except String LoadedFbxPack)
    (sizeEnv : String → Option Nat) (st : LibState) (id : String)
    (e1 : PackEntry) (r1 : Nat) (st1 : LibState)
    (h : loadModelPack fetchEnv sizeEnv st id = (.ok (e1, r1), st1)) :
    loadModelPack fetchEnv sizeEnv st1 id = (.ok (e1, r1), st1) ∧
    st1.fetchCount ≤ st.fetchCount + 1 := by
  cases hfind : findEntry st.modelEntries id with
  | none =>
    rw [loadModelPack_noEntry fetchEnv sizeEnv st id hfind] at h
    simp at h
  | some entry =>
    have hentryid : entry.id = id := findEntry_id hfind
    cases hcache : lookupKey st.modelCache entry.id with
    | some r =>
      rw [loadModelPack_entry fetchEnv sizeEnv st id entry _ hfind
        (loadEntry_hit fetchEnv sizeEnv entry _ _ _ r hcache)] at h
      simp only [Prod.mk.injEq, Except.ok.injEq] at h
      obtain ⟨⟨he1, hr1⟩, hst1⟩ := h
      subst he1
      subst hr1
      have hupd : updateFirstEntry st.modelEntries entry = st.modelEntries :=
        updateFirstEntry_self _ _ (hentryid.symm ▸ hfind)
      have hst : st1 = st := by
        rw [← hst1, hupd]
      subst hst
      refine ⟨?_, by omega⟩
      rw [loadModelPack_entry fetchEnv sizeEnv st1 id entry _ hfind
        (loadEntry_hit fetchEnv sizeEnv entry _ _ _ r hcache)]
      dsimp only
      rw [hupd]
    | none =>
      cases hurl : entry.fbxUrl with
      | none =>
        rw [loadModelPack_entry fetchEnv sizeEnv st id entry _ hfind
          (loadEntry_miss_noUrl fetchEnv sizeEnv entry _ _ _ hcache hurl)] at h
        simp at h
      | some url =>
        cases hfetch : fetchEnv url with
        | error e =>
          rw [loadModelPack_entry fetchEnv sizeEnv st id entry _ hfind
            (loadEntry_miss_err fetchEnv sizeEnv entry _ _ _ url e hcache hurl
              hfetch)] at h
          simp at h
        | ok pack =>
          rw [loadModelPack_entry fetchEnv sizeEnv st id entry _ hfind
            (loadEntry_miss_ok fetchEnv sizeEnv entry _ _ _ url pack hcache
              hurl hfetch)] at h
          simp only [Prod.mk.injEq, Except.ok.injEq] at h
          obtain ⟨⟨he1, hr1⟩, hst1⟩ := h
          have hid1 : e1.id = id := by
            rw [← he1]
            split <;> exact hentryid
          have hfind2 : findEntry st1.modelEntries id = some e1 := by
            rw [← hst1]
            dsimp only
            rw [he1]
            exact findEntry_updateFirst st.modelEntries id entry e1 hfind hid1
          have hcache2 : lookupKey st1.modelCache e1.id = some r1 := by
            rw [← hst1]
            dsimp only
            rw [hid1, ← hentryid, ← hr1]
            exact lookup_setKey_self st.modelCache entry.id _
          have hupd2 : updateFirstEntry st1.modelEntries e1 = st1.modelEntries :=
            updateFirstEntry_self _ _ (hid1.symm ▸ hfind2)
          refine ⟨?_, ?_⟩
          · rw [loadModelPack_entry fetchEnv sizeEnv st1 id e1 _ hfind2
              (loadEntry_hit fetchEnv sizeEnv e1 _ _ _ r1 hcache2)]
            dsimp only
            rw [hupd2]
          · rw [← hst1]

theorem loadModelPack_cache_identity_counterexample :
    (loadModelPack collideEnv sizeEnvNone collideLib
        "runtime-model-pack-0").1.toOption.map (fun p => p.2) = some 0 ∧
    (registerRuntimePack collideSt1 .model_with_clip "pack" ⟨[], true, none⟩
        none).1.id = "runtime-model-pack-0" ∧
    (loadModelPack collideEnv sizeEnvNone collideSt2
        "runtime-model-pack-0").1.toOption.map (fun p => p.2) = some 1 := by
  refine ⟨?_, ?_, ?_⟩ <;> decide

theorem loadModelPack_cache_identity_witness :
    loadModelPack collideEnv sizeEnvNone witSt1 "m" =
      (.ok (witEntry, 0), witSt1) ∧
    witSt1.fetchCount ≤ witLib.fetchCount + 1 :=
  loadModelPack_cache_identity collideEnv sizeEnvNone witLib "m" witEntry 0
    witSt1 (by decide)

/-! ### Claims about the runtime ZIP loader -/

lemma fbxNotAvailableMsg_ne_missing (n : Str) :
    fbxNotAvailableMsg n ≠ zipMissingMsg := by
  intro h
  have hh := congrArg List.head? h
  rw [show (fbxNotAvailableMsg n).head? = some 'F' from rfl] at hh
  rw [show zipMissingMsg.head? = some 'Z' from rfl] at hh
  exact absurd hh (by decide)

lemma fbxNotAvailableMsg_ne_exactlyOne (n : Str) :
    fbxNotAvailableMsg n ≠ zipExactlyOneMsg := by
  intro h
  have hh := congrArg List.head? h
  rw [show (fbxNotAvailableMsg n).head? = some 'F' from rfl] at hh
  rw [show zipExactlyOneMsg.head? = some 'Z' from rfl] at hh
  exact absurd hh (by decide)

lemma loadFbxPackFromBlobMap_error (parseEnv : Str → Except Str LoadedFbxPack)
    (n : Str) (bl : List (Str × Nat)) (e : Str)
    (h : loadFbxPackFromBlobMap parseEnv n bl = .error e) :
    e = fbxNotAvailableMsg n ∨ parseEnv n = .error e := by
  unfold loadFbxPackFromBlobMap at h
  dsimp only at h
  split at h
  · left
    exact (Except.error.injEq _ _ ▸ h).symm
  · right
    exact h
  · right
    exact h

/-- Claim C7: runtime ZIP ingestion raises the validation error whose
message contains "missing" exactly when the archive has zero `.fbx`
entries, raises the validation error whose message contains "exactly one"
exactly when it has two or more, and raises neither with exactly one
(provided the abstract FBX parse never returns those exact validation
messages as its own error). -/
theorem parseRuntimeZip_fbx_count_validation
    (parseEnv : Str → Except Str LoadedFbxPack) (fileName : Str)
    (fileSize : Nat) (files : List ZipEntry)
    (henv : ∀ n e, parseEnv n = .error e →
      e ≠ zipMissingMsg ∧ e ≠ zipExactlyOneMsg) :
    ("missing".data <:+: zipMissingMsg ∧
      "exactly one".data <:+: zipExactlyOneMsg) ∧
    ((fbxEntriesOf files).length = 0 →
      (parseRuntimeZipAsset parseEnv fileName fileSize files).result =
        .error zipMissingMsg) ∧
    ((fbxEntriesOf files).length ≥ 2 →
      (parseRuntimeZipAsset parseEnv fileName fileSize files).result =
        .error zipExactlyOneMsg) ∧
    ((fbxEntriesOf files).length = 1 →
      (parseRuntimeZipAsset parseEnv fileName fileSize files).result ≠
        .error zipMissingMsg ∧
      (parseRuntimeZipAsset parseEnv fileName fileSize files).result ≠
        .error zipExactlyOneMsg) := by
  refine ⟨⟨by decide, by decide⟩, ?_, ?_, ?_⟩
  · intro hlen
    have hfe : fbxEntriesOf files = [] := List.length_eq_zero.mp hlen
    unfold parseRuntimeZipAsset
    rw [hfe]
  · intro hlen
    unfold parseRuntimeZipAsset
    cases hfe : fbxEntriesOf files with
    | nil =>
      rw [hfe] at hlen
      simp only [List.length_nil] at hlen
      omega
    | cons f others =>
      cases others with
      | nil =>
        rw [hfe] at hlen
        simp only [List.length_cons, List.length_nil] at hlen
        omega
      | cons g others2 =>
        dsimp only
        rw [if_pos (by simp)]
  · intro hlen
    unfold parseRuntimeZipAsset
    cases hfe : fbxEntriesOf files with
    | nil =>
      rw [hfe] at hlen
      simp only [List.length_nil] at hlen
      omega
    | cons f others =>
      cases others with
      | cons g others2 =>
        rw [hfe] at hlen
        simp only [List.length_cons, List.length_nil] at hlen
        omega
      | nil =>
        dsimp only
        rw [if_neg (by simp)]
        cases hload : loadFbxPackFromBlobMap parseEnv f.name
            (blobLoop (allEntriesOf files) initialBlobLoopState).blobUrls with
        | error e =>
          dsimp only
          rcases loadFbxPackFromBlobMap_error parseEnv f.name _ e hload with
            hna | hpe
          · subst hna
            exact ⟨by simpa using fbxNotAvailableMsg_ne_missing f.name,
              by simpa using fbxNotAvailableMsg_ne_exactlyOne f.name⟩
          · obtain ⟨h1, h2⟩ := henv f.name e hpe
            exact ⟨by simpa using h1, by simpa using h2⟩
        | ok pack =>
          dsimp only
          exact ⟨by simp, by simp⟩

theorem parseRuntimeZip_fbx_count_validation_witness :
    (parseRuntimeZipAsset okParseEnv "a.zip".data 9
        [⟨"x.png".data, false, 1⟩]).result = .error zipMissingMsg ∧
    (parseRuntimeZipAsset okParseEnv "a.zip".data 9
        [⟨"a.fbx".data, false, 1⟩, ⟨"b.FBX".data, false, 2⟩]).result =
      .error zipExactlyOneMsg ∧
    (parseRuntimeZipAsset okParseEnv "a.zip".data 9
        [⟨"a.fbx".data, false, 1⟩, ⟨"t.png".data, false, 2⟩]).result ≠
      .error zipMissingMsg :=
  ⟨(parseRuntimeZip_fbx_count_validation okParseEnv "a.zip".data 9
      [⟨"x.png".data, false, 1⟩]
      (fun n e h => by simp [okParseEnv] at h)).2.1 (by decide),
   (parseRuntimeZip_fbx_count_validation okParseEnv "a.zip".data 9
      [⟨"a.fbx".data, false, 1⟩, ⟨"b.FBX".data, false, 2⟩]
      (fun n e h => by simp [okParseEnv] at h)).2.2.1 (by decide),
   ((parseRuntimeZip_fbx_count_validation okParseEnv "a.zip".data 9
      [⟨"a.fbx".data, false, 1⟩, ⟨"t.png".data, false, 2⟩]
      (fun n e h => by simp [okParseEnv] at h)).2.2.2 (by decide)).1⟩

lemma parseRuntimeZip_shape (parseEnv : Str → Except Str LoadedFbxPack)
    (fileName : Str) (fileSize : Nat) (files : List ZipEntry) :
    (∃ e cr, parseRuntimeZipAsset parseEnv fileName fileSize files =
      ⟨.error e, cr, cr⟩) ∨
    (∃ p pk cr, parseRuntimeZipAsset parseEnv fileName fileSize files =
      ⟨.ok (p, pk, cr), cr, []⟩) := by
  unfold parseRuntimeZipAsset
  cases hfe : fbxEntriesOf files with
  | nil => exact .inl ⟨zipMissingMsg, [], rfl⟩
  | cons f others =>
    cases others with
    | cons g others2 =>
      dsimp only
      rw [if_pos (by simp)]
      exact .inl ⟨zipExactlyOneMsg, [], rfl⟩
    | nil =>
      dsimp only
      rw [if_neg (by simp)]
      cases hload : loadFbxPackFromBlobMap parseEnv f.name
          (blobLoop (allEntriesOf files) initialBlobLoopState).blobUrls with
      | error e =>
        exact .inl ⟨e, (blobLoop (allEntriesOf files)
          initialBlobLoopState).created, rfl⟩
      | ok pack => exact .inr ⟨_, pack, _, rfl⟩

/-- Claim C8: when runtime ZIP ingestion fails, every object URL created
during the call is revoked on the catch path before the error propagates,
and the upload path registers nothing (the library state is unchanged);
on success nothing is revoked during the call and the returned `revoke`
closure covers exactly the created URLs. -/
theorem parseRuntimeZip_cleanup (parseEnv : Str → Except Str LoadedFbxPack)
    (st : LibState) (fileName : Str) (fileSize : Nat)
    (files : List ZipEntry) :
    (∀ e, (parseRuntimeZipAsset parseEnv fileName fileSize files).result =
        .error e →
      (parseRuntimeZipAsset parseEnv fileName fileSize files).revokedDuringCall =
        (parseRuntimeZipAsset parseEnv fileName fileSize files).created ∧
      onUploadZip parseEnv st fileName fileSize files = (st, none)) ∧
    (∀ p pk rev,
      (parseRuntimeZipAsset parseEnv fileName fileSize files).result =
        .ok (p, pk, rev) →
      (parseRuntimeZipAsset parseEnv fileName fileSize files).revokedDuringCall =
        [] ∧
      rev = (parseRuntimeZipAsset parseEnv fileName fileSize files).created) := by
  rcases parseRuntimeZip_shape parseEnv fileName fileSize files with
    ⟨e0, cr, heq⟩ | ⟨p0, pk0, cr, heq⟩
  · constructor
    · intro e hres
      refine ⟨by rw [heq], ?_⟩
      unfold onUploadZip
      rw [heq]
    · intro p pk rev hres
      rw [heq] at hres
      simp at hres
  · constructor
    · intro e hres
      rw [heq] at hres
      simp at hres
    · intro p pk rev hres
      rw [heq] at hres
      simp only [Except.ok.injEq, Prod.mk.injEq] at hres
      obtain ⟨-, -, hrev⟩ := hres
      subst hrev
      rw [heq]
      exact ⟨rfl, rfl⟩

theorem parseRuntimeZip_cleanup_witness :
    (parseRuntimeZipAsset failParseEnv "a.zip".data 9
        [⟨"a.fbx".data, false, 1⟩, ⟨"t.png".data, false, 2⟩]).revokedDuringCall =
      (parseRuntimeZipAsset failParseEnv "a.zip".data 9
        [⟨"a.fbx".data, false, 1⟩, ⟨"t.png".data, false, 2⟩]).created ∧
    onUploadZip failParseEnv emptyLib "a.zip".data 9
      [⟨"a.fbx".data, false, 1⟩, ⟨"t.png".data, false, 2⟩] = (emptyLib, none) :=
  (parseRuntimeZip_cleanup failParseEnv emptyLib "a.zip".data 9
    [⟨"a.fbx".data, false, 1⟩, ⟨"t.png".data, false, 2⟩]).1 "bad FBX".data
    (by decide)

/-! ### Claim C10: basename shadowing in the blob-URL map -/

lemma blobLoopStep_lookup_preserved (st : BlobLoopState) (e : ZipEntry)
    (k : Str) (v : Nat) (hk : lookupKey st.blobUrls k = some v)
    (hne : normalizeAssetKey e.name ≠ k) :
    lookupKey (blobLoopStep st e).blobUrls k = some v := by
  unfold blobLoopStep
  dsimp only
  have h1 : lookupKey (setKey st.blobUrls (normalizeAssetKey e.name)
      st.nextUrl) k = some v := by
    rw [lookup_setKey_ne _ _ _ _ (fun he => hne he.symm)]
    exact hk
  split
  · rename_i hcond
    obtain ⟨hb, hnone⟩ := hcond
    by_cases hbk : lastSegment (normalizeAssetKey e.name) = k
    · rw [hbk] at hnone
      exact absurd (h1.symm.trans hnone) (by simp)
    · rw [lookup_setKey_ne _ _ _ _ (fun he => hbk he.symm)]
      exact h1
  · exact h1

lemma blobLoop_lookup_preserved (entries : List ZipEntry)
    (st : BlobLoopState) (k : Str) (v : Nat)
    (hk : lookupKey st.blobUrls k = some v)
    (hno : ∀ e ∈ entries, normalizeAssetKey e.name ≠ k) :
    lookupKey (blobLoop entries st).blobUrls k = some v := by
  induction entries generalizing st with
  | nil => exact hk
  | cons e rest ih =>
    exact ih (blobLoopStep st e)
      (blobLoopStep_lookup_preserved st e k v hk
        (hno e (List.mem_cons_self e rest)))
      (fun e' he' => hno e' (List.mem_cons_of_mem e he'))

lemma blobLoopStep_lookup_self (st : BlobLoopState) (e : ZipEntry) :
    lookupKey (blobLoopStep st e).blobUrls (normalizeAssetKey e.name) =
      some st.nextUrl := by
  unfold blobLoopStep
  dsimp only
  split
  · rename_i hcond
    obtain ⟨hb, hnone⟩ := hcond
    by_cases hbk : lastSegment (normalizeAssetKey e.name) =
        normalizeAssetKey e.name
    · rw [hbk, lookup_setKey_self] at hnone
      exact absurd hnone (by simp)
    · rw [lookup_setKey_ne _ _ _ _ (fun he => hbk he.symm)]
      exact lookup_setKey_self _ _ _
  · exact lookup_setKey_self _ _ _

lemma blobLoop_full_keys (entries : List ZipEntry) (st : BlobLoopState)
    (hnd : (entries.map (fun e => normalizeAssetKey e.name)).Nodup) :
    ∀ i (h : i < entries.length),
      lookupKey (blobLoop entries st).blobUrls
        (normalizeAssetKey (entries.get ⟨i, h⟩).name) = some (st.nextUrl + i) := by
  induction entries generalizing st with
  | nil =>
    intro i h
    exact absurd h (by simp)
  | cons e rest ih =>
    intro i h
    rw [List.map_cons, List.nodup_cons] at hnd
    obtain ⟨hnotmem, hnd'⟩ := hnd
    cases i with
    | zero =>
      simp only [List.get, Nat.add_zero]
      show lookupKey (blobLoop rest (blobLoopStep st e)).blobUrls
        (normalizeAssetKey e.name) = some st.nextUrl
      apply blobLoop_lookup_preserved rest (blobLoopStep st e) _ st.nextUrl
        (blobLoopStep_lookup_self st e)
      intro e' he' heq
      exact hnotmem (List.mem_map.mpr ⟨e', he', heq⟩)
    | succ j =>
      have hj : j < rest.length := by
        simpa using h
      have := ih (blobLoopStep st e) hnd' j hj
      have hstep : (blobLoopStep st e).nextUrl = st.nextUrl + 1 := rfl
      rw [hstep] at this
      show lookupKey (blobLoop rest (blobLoopStep st e)).blobUrls
        (normalizeAssetKey (rest.get ⟨j, hj⟩).name) = some (st.nextUrl + (j + 1))
      rw [show st.nextUrl + (j + 1) = st.nextUrl + 1 + j by omega]
      exact this

lemma blobLoopStep_lookup_none (st : BlobLoopState) (e : ZipEntry)
    (b : Str) (hnone : lookupKey st.blobUrls b = none)
    (hne : normalizeAssetKey e.name ≠ b)
    (hbe : lastSegment (normalizeAssetKey e.name) ≠ b) :
    lookupKey (blobLoopStep st e).blobUrls b = none := by
  unfold blobLoopStep
  dsimp only
  have h1 : lookupKey (setKey st.blobUrls (normalizeAssetKey e.name)
      st.nextUrl) b = none := by
    rw [lookup_setKey_ne _ _ _ _ (fun he => hne he.symm)]
    exact hnone
  split
  · rw [lookup_setKey_ne _ _ _ _ (fun he => hbe he.symm)]
    exact h1
  · exact h1

lemma blobLoopStep_writes_base (st : BlobLoopState) (e : ZipEntry)
    (b : Str) (hb : b ≠ []) (hnone : lookupKey st.blobUrls b = none)
    (hne : normalizeAssetKey e.name ≠ b)
    (hbe : lastSegment (normalizeAssetKey e.name) = b) :
    lookupKey (blobLoopStep st e).blobUrls b = some st.nextUrl := by
  unfold blobLoopStep
  dsimp only
  have h1 : lookupKey (setKey st.blobUrls (normalizeAssetKey e.name)
      st.nextUrl) b = none := by
    rw [lookup_setKey_ne _ _ _ _ (fun he => hne he.symm)]
    exact hnone
  split
  · rw [hbe, lookup_setKey_self]
  · rename_i hcond
    exact absurd ⟨hbe.symm ▸ hb, hbe.symm ▸ h1⟩ hcond

lemma blobLoop_basename (entries : List ZipEntry) (st : BlobLoopState)
    (b : Str) (hb : b ≠ []) (hnone : lookupKey st.blobUrls b = none)
    (hno : ∀ e ∈ entries, normalizeAssetKey e.name ≠ b) :
    lookupKey (blobLoop entries st).blobUrls b =
      List.findIdx? (fun e => lastSegment (normalizeAssetKey e.name) = b)
        entries st.nextUrl := by
  induction entries generalizing st with
  | nil =>
    rw [List.findIdx?_nil]
    exact hnone
  | cons e rest ih =>
    rw [List.findIdx?_cons]
    by_cases hbe : lastSegment (normalizeAssetKey e.name) = b
    · rw [if_pos (by simpa using hbe)]
      exact blobLoop_lookup_preserved rest (blobLoopStep st e) b st.nextUrl
        (blobLoopStep_writes_base st e b hb hnone
          (hno e (List.mem_cons_self e rest)) hbe)
        (fun e' he' => hno e' (List.mem_cons_of_mem e he'))
    · rw [if_neg (by simpa using hbe)]
      have hstep : (blobLoopStep st e).nextUrl = st.nextUrl + 1 := rfl
      rw [← hstep]
      exact ih (blobLoopStep st e)
        (blobLoopStep_lookup_none st e b hnone
          (hno e (List.mem_cons_self e rest)) hbe)
        (fun e' he' => hno e' (List.mem_cons_of_mem e he'))

/-- Claim C10 (counterexample): with members `m.fbx`, `dir/a.png`,
`a.png` (in that order), the basename key `"a.png"` is first bound to
`dir/a.png`'s URL (1) but is then overwritten by the full-path write of
the later member `a.png`, ending at URL 2 — so the basename key is not
"never overwritten by a later member". -/
theorem blobLoop_basename_shadowing_counterexample :
    lastSegment (normalizeAssetKey "dir/a.png".data) = "a.png".data ∧
    lookupKey (blobLoop [⟨"m.fbx".data, false, 4⟩, ⟨"dir/a.png".data, false, 1⟩,
        ⟨"a.png".data, false, 2⟩] initialBlobLoopState).blobUrls "a.png".data =
      some 2 ∧ (2 : Nat) ≠ 1 := by
  refine ⟨by decide, by decide, by decide⟩

/-- Claim C10 (amended): in the blob-URL map built by the ingestion loop
(URLs numbered in allocation order, normalized full paths pairwise
distinct): every member is reachable under its full normalized path key;
and a basename key that no member's full normalized path equals is bound
to the first member in iteration order with that basename and is never
overwritten.  When some member's full normalized path equals the basename
itself, that member's unconditional full-path write takes the key
(regardless of order), as the counterexample shows. -/
theorem blobLoop_basename_shadowing (entries : List ZipEntry)
    (hnd : (entries.map (fun e => normalizeAssetKey e.name)).Nodup) :
    (∀ i (h : i < entries.length),
      lookupKey (blobLoop entries initialBlobLoopState).blobUrls
        (normalizeAssetKey (entries.get ⟨i, h⟩).name) = some i) ∧
    (∀ b, b ≠ [] → (∀ e ∈ entries, normalizeAssetKey e.name ≠ b) →
      lookupKey (blobLoop entries initialBlobLoopState).blobUrls b =
        List.findIdx? (fun e => lastSegment (normalizeAssetKey e.name) = b)
          entries) := by
  constructor
  · intro i h
    have := blobLoop_full_keys entries initialBlobLoopState hnd i h
    simpa [initialBlobLoopState] using this
  · intro b hb hno
    exact blobLoop_basename entries initialBlobLoopState b hb rfl hno

/-- Witness for the amended C10 theorem at `exZipEntries`. -/
theorem blobLoop_basename_shadowing_witness :
    lookupKey (blobLoop exZipEntries initialBlobLoopState).blobUrls
      (normalizeAssetKey "dir/a.png".data) = some 1 ∧
    lookupKey (blobLoop exZipEntries initialBlobLoopState).blobUrls
      "a.png".data =
      List.findIdx? (fun e => lastSegment (normalizeAssetKey e.name) = "a.png".data)
        exZipEntries :=
  ⟨(blobLoop_basename_shadowing exZipEntries (by decide)).1 1 (by decide),
   (blobLoop_basename_shadowing exZipEntries (by decide)).2 "a.png".data
     (by decide) (by decide)⟩

end ModelStage
